import Mathlib

/-!
# Verification of the imgmv batch file-renaming utility

Shallow embedding of `src/main.rs` of the `imgmv-rs` repository: a utility
that lists the regular files of a source directory, pairs each file with a
destination path named from a prefix, a sequential index and the original
extension, and then moves, copies or (in dry-run mode) merely reports each
pair.

The embedding models:
* paths as their normalized component sequences (as produced by Rust's
  `Path::components`), with `fileName`, `pathExtension` and `pathJoin`
  following the documented semantics of `Path::file_name`,
  `Path::extension` and `PathBuf::join` for separator-free names;
* the filesystem as a finite association of paths to file contents plus a
  finite association of readable directories to their raw entry listings
  (each entry possibly an I/O error, and each entry's file-type query
  possibly an I/O error), which is what `fs::read_dir` exposes;
* `fs::rename` and `fs::copy` by their POSIX-level behaviour on this map;
* the functions `get_source_files`, `generate_source_destination_pairs`,
  `move_images` and `get_prefix` of the source, by direct transcription,
  with the filesystem state threaded explicitly and the per-pair report
  lines reified as `PairReport` records.
-/

set_option maxRecDepth 4000
set_option linter.unusedVariables false

namespace Imgmv

/-- One component of a path, following Rust's `std::path::Component`
(minus the Windows-only variant). A path value in this development is the
normalized component sequence that `Path::components` yields. -/
inductive Component where
  | rootDir
  | curDir
  | parentDir
  | normal (s : String)
deriving DecidableEq, Repr

/-- A path: its normalized sequence of components. -/
abbrev RPath := List Component

/-- Models `Path::file_name`: the final component when it is a normal
component, `none` when the path is empty, is a root, or ends in `..` or a
leading `.`. -/
def fileName (p : RPath) : Option String :=
  match p.getLast? with
  | some (Component.normal s) => some s
  | _ => none

/-- Index of the last occurrence of `.` in a list of characters. -/
def lastDotIdx : List Char → Option Nat
  | [] => none
  | c :: cs =>
    match lastDotIdx cs with
    | some i => some (i + 1)
    | none => if c = '.' then some 0 else none

/-- The extension of a bare file name, following the documented contract of
`Path::extension`: `none` when there is no embedded `.` or when the name
begins with `.` and has no other `.`; otherwise the portion of the name
after the final `.`, verbatim. -/
def extensionOfName (name : String) : Option String :=
  match lastDotIdx name.toList with
  | none => none
  | some 0 => none
  | some (i + 1) => some (String.mk (name.toList.drop (i + 2)))

/-- Models `Path::extension`: the extension of the path's file name, if
any. -/
def pathExtension (p : RPath) : Option String :=
  match fileName p with
  | none => none
  | some n => extensionOfName n

/-- Models `PathBuf::join` for a single separator-free name: push one
normal component. Every name generated by this program is of that shape
whenever the prefix itself is separator-free, and directory entry names
never contain separators. -/
def pathJoin (p : RPath) (name : String) : RPath :=
  p ++ [Component.normal name]

/-- The destination file name built by `generate_source_destination_pairs`
for the source file at 0-based `index`: the Rust expression
`format!("{}_{}{}", prefix, index, ext_part)` where `ext_part` is
`source_file.extension().map_or(String::new(), |ext| format!(".{}", ext))`. -/
def destName (pre : String) (index : Nat) (source_file : RPath) : String :=
  pre ++ "_" ++ toString index ++
    ((pathExtension source_file).map (fun ext => "." ++ ext)).getD ""

/-- Transcription of `generate_source_destination_pairs` (main.rs:158-178):
enumerate the source files and pair each with
`destination_path.join(format!("{}_{}{}", prefix, index, ext_part))`. -/
def generate_source_destination_pairs (source_files : List RPath)
    (destination_path : RPath) (pre : String) : List (RPath × RPath) :=
  source_files.enum.map (fun iFile =>
    (iFile.2, pathJoin destination_path (destName pre iFile.1 iFile.2)))

/-- The possible file types of a directory entry, as distinguished by
`std::fs::FileType` queries; only `file` (regular file) matters to the
program, everything else is filtered out. -/
inductive FileType where
  | file
  | dir
  | symlink
  | other
deriving DecidableEq, Repr

instance {ε α : Type} [DecidableEq ε] [DecidableEq α] : DecidableEq (Except ε α) := fun a b =>
  match a, b with
  | .ok x, .ok y =>
    if h : x = y then .isTrue (congrArg Except.ok h)
    else .isFalse (fun hc => h (Except.ok.inj hc))
  | .error x, .error y =>
    if h : x = y then .isTrue (congrArg Except.error h)
    else .isFalse (fun hc => h (Except.error.inj hc))
  | .ok _, .error _ => .isFalse (fun hc => Except.noConfusion hc)
  | .error _, .ok _ => .isFalse (fun hc => Except.noConfusion hc)

/-- A raw directory entry as exposed by `fs::read_dir`: its bare name and
the result of `entry.file_type()`, which may itself be an I/O error. -/
structure DirEntryM where
  name : String
  ftype : Except String FileType
deriving DecidableEq, Repr

/-- The filesystem state visible to the program: the readable directories
with their raw entry listings (an unreadable directory is simply absent,
which is how a missing directory or a permission failure of `fs::read_dir`
surfaces), and the regular files with their contents. -/
structure FS where
  dirs : List (RPath × List (Except String DirEntryM))
  files : List (RPath × String)
deriving DecidableEq, Repr

/-- First value associated with a key in an association list. -/
def assoc {α : Type} (l : List (RPath × α)) (p : RPath) : Option α :=
  match l with
  | [] => none
  | (q, a) :: rest => if q = p then some a else assoc rest p

/-- The content stored at a path, when a regular file exists there. -/
def fsRead (fs : FS) (p : RPath) : Option String :=
  assoc fs.files p

/-- The raw listing `fs::read_dir` yields for a path, when the directory
can be opened; `none` models the `Err` case (missing, no permission). -/
def fsReadDir (fs : FS) (p : RPath) : Option (List (Except String DirEntryM)) :=
  assoc fs.dirs p

/-- Store `c` at path `p`, overwriting any file already there. -/
def fsWrite (files : List (RPath × String)) (p : RPath) (c : String) :
    List (RPath × String) :=
  match files with
  | [] => [(p, c)]
  | (q, a) :: rest => if q = p then (p, c) :: rest else (q, a) :: fsWrite rest p c

/-- Remove any file stored at path `p`. -/
def fsErase (files : List (RPath × String)) (p : RPath) : List (RPath × String) :=
  files.filter (fun qa => !decide (qa.1 = p))

/-- Models `fs::rename(source, destination)` on regular files, at POSIX
level: fails when no file exists at the source; otherwise the source entry
is removed and its content now sits at the destination (overwriting any
previous file there). When source and destination are the same existing
path, `rename(2)` succeeds and leaves the file in place, which this
definition reproduces. -/
def fsRename (fs : FS) (source destination : RPath) : Except String FS :=
  match fsRead fs source with
  | none => .error "No such file or directory"
  | some c => .ok { fs with files := fsWrite (fsErase fs.files source) destination c }

/-- Models `fs::copy(source, destination)`: fails when no file exists at
the source; otherwise the destination is opened with truncation and the
source content is then streamed into it. When source and destination are
distinct paths the destination ends up with the source content and the
source is left intact; when they are the same path the truncation empties
the file before the stream, so the copy reports success but leaves the
file empty (the std docs warn that copying a file onto itself gets it
truncated). -/
def fsCopy (fs : FS) (source destination : RPath) : Except String FS :=
  match fsRead fs source with
  | none => .error "No such file or directory"
  | some c =>
    let copied := if source = destination then "" else c
    .ok { fs with files := fsWrite fs.files destination copied }

/-- Transcription of `get_source_files` (main.rs:112-143): propagate the
`fs::read_dir` error with `?`; otherwise `filter_map` the raw entries,
keeping `entry.path()` (the directory path joined with the entry name)
exactly for readable entries whose file type was determined to be a
regular file, skipping erroneous entries and non-file entries. -/
def get_source_files (fs : FS) (source_path : RPath) :
    Except String (List RPath) :=
  match fsReadDir fs source_path with
  | none => .error "Error reading source directory"
  | some entries =>
    .ok (entries.filterMap (fun f =>
      match f with
      | .error _ => none
      | .ok entry =>
        match entry.ftype with
        | .error _ => none
        | .ok file_type =>
          if file_type = FileType.file then some (pathJoin source_path entry.name)
          else none))

/-- The report emitted for one pair by the loop of `move_images`
(main.rs:80-100): the `[dry-run] ` marker and the operation word of the
`op_text` line, the pair itself, and the outcome of the one call to `op`
(`Ok` branches log `op_text`; the `Err` branch logs the failure with its
cause `e`). -/
structure PairReport where
  marker : String
  opName : String
  src : RPath
  dst : RPath
  result : Except String Unit
deriving DecidableEq, Repr

/-- The loop of `move_images` (main.rs:80-100): apply `op` to each pair in
order, threading the filesystem state; a failing pair leaves the state
unchanged, is reported with its cause, and the loop proceeds to the next
pair. -/
def process_pairs (op : FS → RPath → RPath → Except String FS)
    (marker opname : String) (fs : FS) :
    List (RPath × RPath) → FS × List PairReport
  | [] => (fs, [])
  | (source_file, destination_file) :: rest =>
    match op fs source_file destination_file with
    | .ok fs' =>
      let r := process_pairs op marker opname fs' rest
      (r.1, { marker := marker, opName := opname, src := source_file,
              dst := destination_file, result := .ok () } :: r.2)
    | .error e =>
      let r := process_pairs op marker opname fs rest
      (r.1, { marker := marker, opName := opname, src := source_file,
              dst := destination_file, result := .error e } :: r.2)

/-- Transcription of `move_images` (main.rs:47-103), with the filesystem
threaded explicitly: list the source files (propagating a listing failure
with `?`, before anything else happens), select `op` (dry-run: the no-op
closure; else copy or rename), and run the loop over the generated pairs.
The Rust function returns `Ok(())` after the loop regardless of per-pair
failures; here the `Except.ok` carries the reports of the loop. `verbose`
only chooses between `println!` and `debug!` for successful pairs and is
threaded but has no modelled effect. -/
def move_images (fs : FS) (source_path destination_path : RPath)
    (copy_file : Bool) (pre : String) (verbose dry_run : Bool) :
    FS × Except String (List PairReport) :=
  match get_source_files fs source_path with
  | .error e => (fs, .error e)
  | .ok source_files =>
    let op : FS → RPath → RPath → Except String FS := fun st s d =>
      if dry_run then .ok st
      else if copy_file then fsCopy st s d
      else fsRename st s d
    let r := process_pairs op (if dry_run then "[dry-run] " else "")
      (if copy_file then "copy" else "move") fs
      (generate_source_destination_pairs source_files destination_path pre)
    (r.1, .ok r.2)

/-- The command-line arguments of the program (main.rs:10-33). The Rust
field `prefix` is named `pre` here. -/
structure Args where
  source : RPath
  destination : RPath
  copy : Bool
  pre : Option String
  verbose : Bool
  dry_run : Bool

/-- The error message of `get_prefix`. -/
def prefixErrMsg : String :=
  "Cannot determine prefix from source path. Supply a prefix using the --prefix option."

/-- Transcription of `get_prefix` (main.rs:190-201): the override when
supplied, otherwise `source.file_name()`, with an error when that is
`None`. (`to_string_lossy().to_string()` is the identity here, names being
modelled as valid Unicode strings.) -/
def get_prefix (args : Args) : Except String String :=
  match args.pre with
  | some p => .ok p
  | none =>
    match fileName args.source with
    | some s => .ok s
    | none => .error prefixErrMsg

/-- Transcription of `main` (main.rs:203-220) after successful
canonicalization of both paths (`canonSrc`, `canonDst`): determine the
prefix, aborting with its error before `move_images` is ever entered, and
otherwise run `move_images` on the canonicalized paths with the parsed
flags. -/
def main_run (fs : FS) (args : Args) (canonSrc canonDst : RPath) :
    FS × Except String (List PairReport) :=
  match get_prefix args with
  | .error e => (fs, .error e)
  | .ok pre =>
    move_images fs canonSrc canonDst args.copy pre args.verbose args.dry_run

/-! ## Helper lemmas -/

theorem fileName_pathJoin (p : RPath) (name : String) :
    fileName (pathJoin p name) = some name := by
  simp [fileName, pathJoin, List.getLast?_concat]

theorem lastDotIdx_eq_none {cs : List Char} (h : '.' ∉ cs) : lastDotIdx cs = none := by
  induction cs with
  | nil => rfl
  | cons c cs ih =>
    simp only [List.mem_cons, not_or] at h
    simp [lastDotIdx, ih h.2, Ne.symm h.1]

theorem process_pairs_map_eq (op : FS → RPath → RPath → Except String FS)
    (marker opname : String) (fs : FS) (pairs : List (RPath × RPath)) :
    (process_pairs op marker opname fs pairs).2.map (fun r => (r.src, r.dst))
      = pairs := by
  induction pairs generalizing fs with
  | nil => rfl
  | cons p rest ih =>
    obtain ⟨s, d⟩ := p
    cases hop : op fs s d <;> simp [process_pairs, hop, ih]

theorem process_pairs_const_ok (marker opname : String) (fs : FS)
    (pairs : List (RPath × RPath)) :
    process_pairs (fun st _ _ => Except.ok st) marker opname fs pairs =
      (fs, pairs.map (fun p =>
        { marker := marker, opName := opname, src := p.1, dst := p.2,
          result := Except.ok () })) := by
  induction pairs generalizing fs with
  | nil => rfl
  | cons p rest ih =>
    obtain ⟨s, d⟩ := p
    simp [process_pairs, ih]

/-- The filesystem and pairs of the concrete partial-failure scenario:
files exist at `/a` and `/c` but not at `/b`, and three move pairs
`a → x`, `b → y`, `c → z` are processed. -/
def failScenarioFS : FS :=
  FS.mk [] [([Component.normal "a"], "1"), ([Component.normal "c"], "3")]

def failScenarioPairs : List (RPath × RPath) :=
  [([Component.normal "a"], [Component.normal "x"]),
   ([Component.normal "b"], [Component.normal "y"]),
   ([Component.normal "c"], [Component.normal "z"])]

/-! ## Claims -/

/-- C1: for every input list of N source file paths, a destination
directory and a prefix, `generate_source_destination_pairs` produces
exactly N pairs, the i-th pair's source is the i-th input file (same
order), and its destination is the destination directory joined with the
name built from index i. -/
theorem pair_generation_count_and_order (source_files : List RPath)
    (destination_path : RPath) (pre : String) :
    (generate_source_destination_pairs source_files destination_path pre).length
        = source_files.length ∧
    ∀ i (h : i < source_files.length),
      (generate_source_destination_pairs source_files destination_path pre).get
          ⟨i, by simpa [generate_source_destination_pairs] using h⟩ =
        (source_files.get ⟨i, h⟩,
         pathJoin destination_path (destName pre i (source_files.get ⟨i, h⟩))) := by
  constructor
  · simp [generate_source_destination_pairs]
  · intro i h
    simp [generate_source_destination_pairs, List.get_eq_getElem,
      List.getElem_map, List.getElem_enum]

/-- C1 witness: on a concrete two-file listing the pairs come out in
order with indices 0 and 1 in the destination names. -/
theorem pair_generation_count_and_order_witness :
    (generate_source_destination_pairs
        [[Component.normal "a.png"], [Component.normal "b.png"]]
        [Component.rootDir, Component.normal "dest"] "img").length = 2 ∧
    (generate_source_destination_pairs
        [[Component.normal "a.png"], [Component.normal "b.png"]]
        [Component.rootDir, Component.normal "dest"] "img").get ⟨1, by decide⟩ =
      ([Component.normal "b.png"],
       pathJoin [Component.rootDir, Component.normal "dest"]
         (destName "img" 1 [Component.normal "b.png"])) := by
  refine ⟨?_, ?_⟩
  · exact (pair_generation_count_and_order
      [[Component.normal "a.png"], [Component.normal "b.png"]]
      [Component.rootDir, Component.normal "dest"] "img").1
  · exact (pair_generation_count_and_order
      [[Component.normal "a.png"], [Component.normal "b.png"]]
      [Component.rootDir, Component.normal "dest"] "img").2 1 (by decide)

/-- C2: the i-th generated destination is the destination directory joined
with the name `destName pre i src`, and that name is exactly
`pre_i.ext` when the source file has extension `ext` (preserved verbatim),
and exactly `pre_i` with no trailing dot when it has none. -/
theorem dest_name_formula (source_files : List RPath)
    (destination_path : RPath) (pre : String) (i : Nat)
    (h : i < source_files.length) (src : RPath)
    (hsrc : source_files.get ⟨i, h⟩ = src) :
    ((generate_source_destination_pairs source_files destination_path pre).get
        ⟨i, by simpa [generate_source_destination_pairs] using h⟩).2 =
      pathJoin destination_path (destName pre i src) ∧
    (∀ ext, pathExtension src = some ext →
        destName pre i src = pre ++ "_" ++ toString i ++ "." ++ ext) ∧
    (pathExtension src = none →
        destName pre i src = pre ++ "_" ++ toString i) := by
  refine ⟨?_, ?_, ?_⟩
  · subst hsrc
    simp [generate_source_destination_pairs, List.get_eq_getElem,
      List.getElem_map, List.getElem_enum]
  · intro ext he
    simp [destName, he, String.append_assoc]
  · intro he
    simp [destName, he]

/-- C2 witness: the spec's two examples. A source file `photo.JPG` with
prefix `trip` at index 3 yields the name `trip_3.JPG` (case preserved);
an extensionless `README` with prefix `x` at index 0 yields `x_0`. -/
theorem dest_name_formula_witness :
    destName "trip" 3 [Component.normal "photo.JPG"] = "trip_3.JPG" ∧
    destName "x" 0 [Component.normal "README"] = "x_0" := by
  refine ⟨?_, ?_⟩
  · have h := (dest_name_formula
      [[Component.normal "p0"], [Component.normal "p1"], [Component.normal "p2"],
       [Component.normal "photo.JPG"]]
      [] "trip" 3 (by decide) [Component.normal "photo.JPG"] (by decide)).2.1
      "JPG" (by decide)
    rw [h]; decide
  · have h := (dest_name_formula [[Component.normal "README"]]
      [] "x" 0 (by decide) [Component.normal "README"] (by decide)).2.2
      (by decide)
    rw [h]; decide

/-- C10: a source file whose name begins with a dot and contains no other
dot is extensionless for pair generation: its destination name is
`pre_i` with nothing appended. -/
theorem hidden_file_extensionless (pre : String) (i : Nat) (dir : RPath)
    (name : String) (h1 : name.toList.head? = some '.')
    (h2 : '.' ∉ name.toList.tail) :
    pathExtension (pathJoin dir name) = none ∧
    destName pre i (pathJoin dir name) = pre ++ "_" ++ toString i := by
  have hext : pathExtension (pathJoin dir name) = none := by
    cases hl : name.toList with
    | nil => rw [hl] at h1; simp at h1
    | cons c t =>
      rw [hl] at h1
      simp only [List.head?_cons, Option.some.injEq] at h1
      rw [hl] at h2
      simp only [List.tail_cons] at h2
      have hdata : name.data = c :: t := hl
      have hld : lastDotIdx name.data = some 0 := by
        rw [hdata, h1]; simp [lastDotIdx, lastDotIdx_eq_none h2]
      simp [pathExtension, fileName_pathJoin, extensionOfName, hld]
  exact ⟨hext, by simp [destName, hext]⟩

/-- C10 witness: the file `.hidden` at index 0 with prefix `p` gets the
destination name `p_0`, with no extension recognized. -/
theorem hidden_file_extensionless_witness :
    pathExtension (pathJoin [Component.rootDir] ".hidden") = none ∧
    destName "p" 0 (pathJoin [Component.rootDir] ".hidden") = "p" ++ "_" ++ toString 0 :=
  hidden_file_extensionless "p" 0 [Component.rootDir] ".hidden"
    (by decide) (by decide)

/-- C3: a failing pair never aborts the batch. For an arbitrary per-pair
operation, the loop emits exactly one report per pair, in input order (so
every pair is attempted exactly once, with no retry and no skipping after
a failure); whenever the listing succeeded, `move_images` returns `Ok`
with one report per generated pair; and in the concrete three-pair
scenario where the second move fails, the first and third still complete
(their effects are in the final state) and exactly the second is reported
as failed, with its cause. -/
theorem batch_failure_isolation (op : FS → RPath → RPath → Except String FS)
    (marker opname : String) (fs fs0 : FS) (pairs : List (RPath × RPath))
    (sp dp : RPath) (c : Bool) (pre : String) (v d : Bool)
    (files : List RPath) (hlist : get_source_files fs0 sp = .ok files) :
    ((process_pairs op marker opname fs pairs).2.map (fun r => (r.src, r.dst))
        = pairs) ∧
    (∃ reports, (move_images fs0 sp dp c pre v d).2 = .ok reports ∧
        reports.map (fun r => (r.src, r.dst)) =
          generate_source_destination_pairs files dp pre) ∧
    process_pairs fsRename "" "move" failScenarioFS failScenarioPairs =
      (FS.mk [] [([Component.normal "x"], "1"), ([Component.normal "z"], "3")],
       [{ marker := "", opName := "move", src := [Component.normal "a"],
          dst := [Component.normal "x"], result := .ok () },
        { marker := "", opName := "move", src := [Component.normal "b"],
          dst := [Component.normal "y"],
          result := .error "No such file or directory" },
        { marker := "", opName := "move", src := [Component.normal "c"],
          dst := [Component.normal "z"], result := .ok () }]) := by
  refine ⟨process_pairs_map_eq op marker opname fs pairs, ?_, by decide⟩
  simp only [move_images, hlist]
  exact ⟨_, rfl, process_pairs_map_eq _ _ _ _ _⟩

/-- C3 witness: the theorem applied at a concrete filesystem whose source
directory listing succeeds. -/
theorem batch_failure_isolation_witness :
    ((process_pairs fsRename "" "move" (FS.mk [] []) []).2.map
        (fun r => (r.src, r.dst)) = []) ∧
    (∃ reports,
        (move_images
          (FS.mk [([Component.rootDir],
              [Except.ok (DirEntryM.mk "f.png" (.ok FileType.file))])]
            [([Component.rootDir, Component.normal "f.png"], "data")])
          [Component.rootDir] [Component.normal "out"] false "x" false false).2
          = .ok reports ∧
        reports.map (fun r => (r.src, r.dst)) =
          generate_source_destination_pairs
            [[Component.rootDir, Component.normal "f.png"]]
            [Component.normal "out"] "x") ∧
    process_pairs fsRename "" "move" failScenarioFS failScenarioPairs =
      (FS.mk [] [([Component.normal "x"], "1"), ([Component.normal "z"], "3")],
       [{ marker := "", opName := "move", src := [Component.normal "a"],
          dst := [Component.normal "x"], result := .ok () },
        { marker := "", opName := "move", src := [Component.normal "b"],
          dst := [Component.normal "y"],
          result := .error "No such file or directory" },
        { marker := "", opName := "move", src := [Component.normal "c"],
          dst := [Component.normal "z"], result := .ok () }]) :=
  batch_failure_isolation fsRename "" "move" (FS.mk [] [])
    (FS.mk [([Component.rootDir],
        [Except.ok (DirEntryM.mk "f.png" (.ok FileType.file))])]
      [([Component.rootDir, Component.normal "f.png"], "data")])
    [] [Component.rootDir] [Component.normal "out"] false "x" false false
    [[Component.rootDir, Component.normal "f.png"]] (by decide)

/-- C4: in dry-run (Simulate) mode `move_images` leaves the filesystem
exactly as it was and reports every pair as succeeded, for any inputs
whose listing succeeds, regardless of the number of files or of naming
collisions. -/
theorem simulate_no_mutation (fs : FS) (sp dp : RPath) (c : Bool)
    (pre : String) (v : Bool) (files : List RPath)
    (h : get_source_files fs sp = .ok files) :
    (move_images fs sp dp c pre v true).1 = fs ∧
    ∃ reports, (move_images fs sp dp c pre v true).2 = .ok reports ∧
      ∀ r ∈ reports, r.result = Except.ok () := by
  have hrun : move_images fs sp dp c pre v true =
      (fs, .ok ((generate_source_destination_pairs files dp pre).map (fun p =>
        { marker := "[dry-run] ", opName := if c then "copy" else "move",
          src := p.1, dst := p.2, result := Except.ok () }))) := by
    simp [move_images, h, process_pairs_const_ok]
  rw [hrun]
  refine ⟨rfl, _, rfl, ?_⟩
  intro r hr
  simp only [List.mem_map] at hr
  obtain ⟨p, _, rfl⟩ := hr
  rfl

/-- C4 witness: a dry run over a one-file directory leaves the concrete
filesystem untouched and reports success. -/
theorem simulate_no_mutation_witness :
    (move_images
        (FS.mk [([Component.rootDir],
            [Except.ok (DirEntryM.mk "f.png" (.ok FileType.file))])]
          [([Component.rootDir, Component.normal "f.png"], "data")])
        [Component.rootDir] [Component.normal "out"] false "x" false true).1 =
      FS.mk [([Component.rootDir],
          [Except.ok (DirEntryM.mk "f.png" (.ok FileType.file))])]
        [([Component.rootDir, Component.normal "f.png"], "data")] ∧
    ∃ reports,
      (move_images
          (FS.mk [([Component.rootDir],
              [Except.ok (DirEntryM.mk "f.png" (.ok FileType.file))])]
            [([Component.rootDir, Component.normal "f.png"], "data")])
          [Component.rootDir] [Component.normal "out"] false "x" false true).2
        = .ok reports ∧
      ∀ r ∈ reports, r.result = Except.ok () :=
  simulate_no_mutation
    (FS.mk [([Component.rootDir],
        [Except.ok (DirEntryM.mk "f.png" (.ok FileType.file))])]
      [([Component.rootDir, Component.normal "f.png"], "data")])
    [Component.rootDir] [Component.normal "out"] false "x" false
    [[Component.rootDir, Component.normal "f.png"]] (by decide)

/-- C9: when both the dry-run flag and the copy flag are set, dry-run wins:
the filesystem is untouched and every pair succeeds, yet each per-pair
report carries the operation word `copy` (and the `[dry-run] ` marker). -/
theorem dry_run_copy_precedence (fs : FS) (sp dp : RPath) (pre : String)
    (v : Bool) (files : List RPath)
    (h : get_source_files fs sp = .ok files) :
    (move_images fs sp dp true pre v true).1 = fs ∧
    ∃ reports, (move_images fs sp dp true pre v true).2 = .ok reports ∧
      ∀ r ∈ reports,
        r.result = Except.ok () ∧ r.opName = "copy" ∧ r.marker = "[dry-run] " := by
  have hrun : move_images fs sp dp true pre v true =
      (fs, .ok ((generate_source_destination_pairs files dp pre).map (fun p =>
        { marker := "[dry-run] ", opName := "copy",
          src := p.1, dst := p.2, result := Except.ok () }))) := by
    simp [move_images, h, process_pairs_const_ok]
  rw [hrun]
  refine ⟨rfl, _, rfl, ?_⟩
  intro r hr
  simp only [List.mem_map] at hr
  obtain ⟨p, _, rfl⟩ := hr
  exact ⟨rfl, rfl, rfl⟩

/-- C9 witness: dry-run plus copy over a one-file directory changes
nothing and reports a simulated copy. -/
theorem dry_run_copy_precedence_witness :
    (move_images
        (FS.mk [([Component.rootDir],
            [Except.ok (DirEntryM.mk "f.png" (.ok FileType.file))])]
          [([Component.rootDir, Component.normal "f.png"], "data")])
        [Component.rootDir] [Component.normal "out"] true "x" false true).1 =
      FS.mk [([Component.rootDir],
          [Except.ok (DirEntryM.mk "f.png" (.ok FileType.file))])]
        [([Component.rootDir, Component.normal "f.png"], "data")] ∧
    ∃ reports,
      (move_images
          (FS.mk [([Component.rootDir],
              [Except.ok (DirEntryM.mk "f.png" (.ok FileType.file))])]
            [([Component.rootDir, Component.normal "f.png"], "data")])
          [Component.rootDir] [Component.normal "out"] true "x" false true).2
        = .ok reports ∧
      ∀ r ∈ reports,
        r.result = Except.ok () ∧ r.opName = "copy" ∧ r.marker = "[dry-run] " :=
  dry_run_copy_precedence
    (FS.mk [([Component.rootDir],
        [Except.ok (DirEntryM.mk "f.png" (.ok FileType.file))])]
      [([Component.rootDir, Component.normal "f.png"], "data")])
    [Component.rootDir] [Component.normal "out"] "x" false
    [[Component.rootDir, Component.normal "f.png"]] (by decide)

/-- C5: when the source directory cannot be opened or read, the listing
fails with an error (no partial listing), and `move_images` propagates it
immediately: the filesystem is untouched (zero files processed, no
destination-directory activity) and the run fails with a fatal error. -/
theorem unreadable_source_is_fatal (fs : FS) (sp dp : RPath) (c : Bool)
    (pre : String) (v d : Bool) (h : fsReadDir fs sp = none) :
    (∃ e, get_source_files fs sp = .error e) ∧
    (move_images fs sp dp c pre v d).1 = fs ∧
    (∃ e, (move_images fs sp dp c pre v d).2 = .error e) := by
  have hg : get_source_files fs sp = .error "Error reading source directory" := by
    simp [get_source_files, h]
  refine ⟨⟨"Error reading source directory", hg⟩, ?_,
    "Error reading source directory", ?_⟩ <;> simp [move_images, hg]

/-- C5 witness: against an empty filesystem (every directory unreadable)
the run fails fatally and changes nothing. -/
theorem unreadable_source_is_fatal_witness :
    (∃ e, get_source_files (FS.mk [] []) [Component.rootDir] = .error e) ∧
    (move_images (FS.mk [] []) [Component.rootDir] [Component.normal "out"]
        false "x" false false).1 = FS.mk [] [] ∧
    (∃ e, (move_images (FS.mk [] []) [Component.rootDir]
        [Component.normal "out"] false "x" false false).2 = .error e) :=
  unreadable_source_is_fatal (FS.mk [] []) [Component.rootDir]
    [Component.normal "out"] false "x" false false rfl

/-- C6: when the directory can be read, the listing succeeds (erroneous
entries and entries with undeterminable type never abort it), and a path
is listed exactly when it is the directory path joined with the name of a
readable entry whose determined file type is regular file: every
directory, symlink, socket or device entry, every entry whose type query
failed, and every unreadable entry is excluded. -/
theorem listing_exactly_regular_files (fs : FS) (sp : RPath)
    (entries : List (Except String DirEntryM))
    (h : fsReadDir fs sp = some entries) :
    ∃ l, get_source_files fs sp = .ok l ∧
      ∀ p, p ∈ l ↔ ∃ nm,
        Except.ok (DirEntryM.mk nm (.ok FileType.file)) ∈ entries ∧
        p = pathJoin sp nm := by
  refine ⟨entries.filterMap (fun f =>
      match f with
      | .error _ => none
      | .ok entry =>
        match entry.ftype with
        | .error _ => none
        | .ok file_type =>
          if file_type = FileType.file then some (pathJoin sp entry.name)
          else none), ?_, ?_⟩
  · simp [get_source_files, h]
  intro p
  simp only [List.mem_filterMap]
  constructor
  · rintro ⟨a, ha, hfa⟩
    match a with
    | .error e => simp at hfa
    | .ok (DirEntryM.mk nm (.error e)) => simp at hfa
    | .ok (DirEntryM.mk nm (.ok ft)) =>
      by_cases hft : ft = FileType.file
      · subst hft
        simp at hfa
        exact ⟨nm, ha, hfa.symm⟩
      · simp [hft] at hfa
  · rintro ⟨nm, hmem, rfl⟩
    exact ⟨.ok (DirEntryM.mk nm (.ok FileType.file)), hmem, by simp⟩

/-- C6 witness: a directory holding a regular file, a subdirectory, an
entry whose type query fails and an unreadable entry lists exactly the
regular file. -/
theorem listing_exactly_regular_files_witness :
    ∃ l, get_source_files
        (FS.mk [([Component.rootDir],
            [Except.ok (DirEntryM.mk "a" (.ok FileType.file)),
             Except.ok (DirEntryM.mk "d" (.ok FileType.dir)),
             Except.ok (DirEntryM.mk "b" (.error "io error")),
             Except.error "bad entry"])] [])
        [Component.rootDir] = .ok l ∧
      ∀ p, p ∈ l ↔ ∃ nm,
        Except.ok (DirEntryM.mk nm (.ok FileType.file)) ∈
          [Except.ok (DirEntryM.mk "a" (.ok FileType.file)),
           Except.ok (DirEntryM.mk "d" (.ok FileType.dir)),
           Except.ok (DirEntryM.mk "b" (.error "io error")),
           Except.error "bad entry"] ∧
        p = pathJoin [Component.rootDir] nm :=
  listing_exactly_regular_files
    (FS.mk [([Component.rootDir],
        [Except.ok (DirEntryM.mk "a" (.ok FileType.file)),
         Except.ok (DirEntryM.mk "d" (.ok FileType.dir)),
         Except.ok (DirEntryM.mk "b" (.error "io error")),
         Except.error "bad entry"])] [])
    [Component.rootDir] _ rfl

theorem assoc_fsWrite_self (l : List (RPath × String)) (p : RPath) (c : String) :
    assoc (fsWrite l p c) p = some c := by
  induction l with
  | nil => simp [fsWrite, assoc]
  | cons qa rest ih =>
    obtain ⟨q, a⟩ := qa
    by_cases hq : q = p <;> simp [fsWrite, assoc, hq, ih]

theorem assoc_fsWrite_ne (l : List (RPath × String)) (p q : RPath) (c : String)
    (h : q ≠ p) : assoc (fsWrite l p c) q = assoc l q := by
  induction l with
  | nil => simp [fsWrite, assoc, Ne.symm h]
  | cons ra rest ih =>
    obtain ⟨r, a⟩ := ra
    by_cases hr : r = p
    · subst hr
      simp [fsWrite, assoc, Ne.symm h]
    · by_cases hrq : r = q <;> simp [fsWrite, assoc, hr, hrq, h, ih]

theorem assoc_fsErase_self (l : List (RPath × String)) (p : RPath) :
    assoc (fsErase l p) p = none := by
  induction l with
  | nil => rfl
  | cons qa rest ih =>
    obtain ⟨q, a⟩ := qa
    by_cases hq : q = p <;> simp [fsErase, assoc, hq, ih] <;>
      simpa [fsErase] using ih

/-- C7 counterexample to the claim as universally stated: the pipeline
itself can produce a pair whose destination equals its source (destination
directory = source directory, and the single file already bears its
computed name `x_0`). In move mode the rename then succeeds, yet the
source path still exists afterwards with its content intact; in copy mode
the copy also reports success, yet the truncation empties the file, so
neither path holds the original content afterwards. -/
theorem move_postcondition_counterexample :
    (move_images
        (FS.mk [([Component.normal "d"],
            [Except.ok (DirEntryM.mk "x_0" (.ok FileType.file))])]
          [([Component.normal "d", Component.normal "x_0"], "payload")])
        [Component.normal "d"] [Component.normal "d"] false "x" false false) =
      (FS.mk [([Component.normal "d"],
          [Except.ok (DirEntryM.mk "x_0" (.ok FileType.file))])]
        [([Component.normal "d", Component.normal "x_0"], "payload")],
       .ok [{ marker := "", opName := "move",
              src := [Component.normal "d", Component.normal "x_0"],
              dst := [Component.normal "d", Component.normal "x_0"],
              result := .ok () }]) ∧
    fsRead
      (FS.mk [([Component.normal "d"],
          [Except.ok (DirEntryM.mk "x_0" (.ok FileType.file))])]
        [([Component.normal "d", Component.normal "x_0"], "payload")])
      [Component.normal "d", Component.normal "x_0"] = some "payload" ∧
    (move_images
        (FS.mk [([Component.normal "d"],
            [Except.ok (DirEntryM.mk "x_0" (.ok FileType.file))])]
          [([Component.normal "d", Component.normal "x_0"], "payload")])
        [Component.normal "d"] [Component.normal "d"] true "x" false false) =
      (FS.mk [([Component.normal "d"],
          [Except.ok (DirEntryM.mk "x_0" (.ok FileType.file))])]
        [([Component.normal "d", Component.normal "x_0"], "")],
       .ok [{ marker := "", opName := "copy",
              src := [Component.normal "d", Component.normal "x_0"],
              dst := [Component.normal "d", Component.normal "x_0"],
              result := .ok () }]) := by
  decide

/-- C7 (amended): for a pair whose source and destination differ, a
successful Move removes the source and places its exact content at the
destination, and a successful Copy leaves both source and destination
existing with the identical original content. When a pair's source equals
its destination, a successful Move (rename) leaves the single file in
place with its content, while a successful Copy truncates it: the file is
left empty. -/
theorem move_copy_postconditions (fs : FS) (source destination : RPath)
    (c : String) (h : fsRead fs source = some c) :
    (∀ fs1, source ≠ destination → fsRename fs source destination = .ok fs1 →
        fsRead fs1 source = none ∧ fsRead fs1 destination = some c) ∧
    (∀ fs2, source ≠ destination → fsCopy fs source destination = .ok fs2 →
        fsRead fs2 source = some c ∧ fsRead fs2 destination = some c) ∧
    (fsRename fs source source = .ok (FS.mk fs.dirs
        (fsWrite (fsErase fs.files source) source c)) ∧
      fsRead (FS.mk fs.dirs
        (fsWrite (fsErase fs.files source) source c)) source = some c) ∧
    (fsCopy fs source source = .ok (FS.mk fs.dirs
        (fsWrite fs.files source "")) ∧
      fsRead (FS.mk fs.dirs
        (fsWrite fs.files source "")) source = some "") := by
  refine ⟨?_, ?_, ⟨?_, ?_⟩, ⟨?_, ?_⟩⟩
  · intro fs1 hne hok
    simp only [fsRename, h, Except.ok.injEq] at hok
    subst hok
    constructor
    · show assoc (fsWrite (fsErase fs.files source) destination c) source = none
      rw [assoc_fsWrite_ne _ _ _ _ hne, assoc_fsErase_self]
    · exact assoc_fsWrite_self _ _ _
  · intro fs2 hne hok
    simp only [fsCopy, h, if_neg hne, Except.ok.injEq] at hok
    subst hok
    refine ⟨?_, assoc_fsWrite_self _ _ _⟩
    show assoc (fsWrite fs.files destination c) source = some c
    rw [assoc_fsWrite_ne _ _ _ _ hne]
    exact h
  · simp [fsRename, h]
  · exact assoc_fsWrite_self _ _ _
  · simp [fsCopy, h]
  · exact assoc_fsWrite_self _ _ _

/-- C7 witness: on a concrete two-path filesystem, a move empties the
source and fills the destination, a copy between distinct paths fills
both, a self-rename leaves the file with its content, and a self-copy
leaves it empty. -/
theorem move_copy_postconditions_witness :
    (∀ fs1, ([Component.normal "a"] : RPath) ≠ [Component.normal "b"] →
        fsRename (FS.mk [] [([Component.normal "a"], "payload")])
            [Component.normal "a"] [Component.normal "b"] = .ok fs1 →
        fsRead fs1 [Component.normal "a"] = none ∧
        fsRead fs1 [Component.normal "b"] = some "payload") ∧
    (∀ fs2, ([Component.normal "a"] : RPath) ≠ [Component.normal "b"] →
        fsCopy (FS.mk [] [([Component.normal "a"], "payload")])
            [Component.normal "a"] [Component.normal "b"] = .ok fs2 →
        fsRead fs2 [Component.normal "a"] = some "payload" ∧
        fsRead fs2 [Component.normal "b"] = some "payload") ∧
    (fsRename (FS.mk [] [([Component.normal "a"], "payload")])
          [Component.normal "a"] [Component.normal "a"] =
        .ok (FS.mk []
          (fsWrite (fsErase [([Component.normal "a"], "payload")]
            [Component.normal "a"]) [Component.normal "a"] "payload")) ∧
      fsRead (FS.mk []
          (fsWrite (fsErase [([Component.normal "a"], "payload")]
            [Component.normal "a"]) [Component.normal "a"] "payload"))
        [Component.normal "a"] = some "payload") ∧
    (fsCopy (FS.mk [] [([Component.normal "a"], "payload")])
          [Component.normal "a"] [Component.normal "a"] =
        .ok (FS.mk []
          (fsWrite [([Component.normal "a"], "payload")]
            [Component.normal "a"] "")) ∧
      fsRead (FS.mk []
          (fsWrite [([Component.normal "a"], "payload")]
            [Component.normal "a"] ""))
        [Component.normal "a"] = some "") :=
  move_copy_postconditions (FS.mk [] [([Component.normal "a"], "payload")])
    [Component.normal "a"] [Component.normal "b"] "payload" rfl

/-- C8: the prefix is the override when one is supplied; otherwise it is
the source directory's base name; and when neither is available the run
fails with the configuration error before `move_images` ever runs: the
filesystem is untouched and the result is the fatal prefix error. -/
theorem prefix_determination (args : Args) (fs : FS)
    (canonSrc canonDst : RPath) :
    (∀ p, args.pre = some p → get_prefix args = .ok p) ∧
    (∀ s, args.pre = none → fileName args.source = some s →
        get_prefix args = .ok s) ∧
    (args.pre = none → fileName args.source = none →
        get_prefix args = .error prefixErrMsg ∧
        main_run fs args canonSrc canonDst = (fs, .error prefixErrMsg)) := by
  refine ⟨?_, ?_, ?_⟩
  · intro p hp
    simp [ get_prefix, hp]
  · intro s hp hs
    simp [ get_prefix, hp, hs]
  · intro hp hs
    have hg : get_prefix args = .error prefixErrMsg := by
      simp [ get_prefix, hp, hs]
    exact ⟨hg, by simp [main_run, hg]⟩

/-- C8 witness: with no override and the filesystem root as source path
(no extractable base name), the run aborts with the configuration error
and the filesystem is untouched. -/
theorem prefix_determination_witness :
    get_prefix (Args.mk [Component.rootDir] [] false none false false) =
      .error prefixErrMsg ∧
    main_run (FS.mk [] [])
        (Args.mk [Component.rootDir] [] false none false false)
        [Component.rootDir] [] =
      (FS.mk [] [], .error prefixErrMsg) :=
  (prefix_determination
    (Args.mk [Component.rootDir] [] false none false false)
    (FS.mk [] []) [Component.rootDir] []).2.2 rfl rfl

end Imgmv
